import Mathlib

set_option maxRecDepth 100000

/-!
Verification of the PNG metadata embedder (package `metadata`):
`AddPromptToPNG`, `createTextChunk` and `ReadPromptFromPNG` operate on a
PNG file as a chunk-based byte container.  Here the file contents are
modelled as `List Nat` (Go `[]byte`, each element `< 256`), file I/O is
replaced by explicit buffer passing, and the sequential `for {}` chunk
loop of `ReadPromptFromPNG` becomes a bounded recursion over the bytes
that remain.  `Except ErrKind` stands for Go's `error` results, with the
distinct error strings of the source mapped to the error kinds of the
design document.
-/

/-- Error kinds of the metadata subsystem.  `unsupportedFormat` stands for
the Go errors "file is neither PNG nor JPEG format", "failed to read PNG
signature" and "not a valid PNG file"; `truncatedContainer` for "PNG file
too short" and for the `io.ErrUnexpectedEOF` / bare-`io.EOF` results of the
in-chunk reads; `recordNotFound` for "no Prompt metadata found in PNG";
`legacyRasterPath` marks the JPEG-conversion branch of `AddPromptToPNG`,
whose image transcoding is outside this model. -/
inductive ErrKind where
  | unsupportedFormat
  | truncatedContainer
  | recordNotFound
  | legacyRasterPath
  deriving DecidableEq

/-- The 8-byte PNG signature `{137, 80, 78, 71, 13, 10, 26, 10}` checked at
main.go:39 and main.go:126. -/
def pngSignature : List Nat := [137, 80, 78, 71, 13, 10, 26, 10]

/-- Byte values of the 4-byte chunk type "tEXt" (main.go:100). -/
def tEXtTag : List Nat := [116, 69, 88, 116]

/-- Byte values of the 4-byte chunk type "IEND" (main.go:173). -/
def iendTag : List Nat := [73, 69, 78, 68]

/-- Byte values of the keyword "Prompt" (main.go:62, main.go:165). -/
def promptKeyword : List Nat := [80, 114, 111, 109, 112, 116]

/-- Big-endian u32 serialization, as performed by
`binary.Write(buf, binary.BigEndian, x)` on a `uint32`; depends only on
`n % 2 ^ 32`, mirroring the truncation of Go's `uint32(...)` cast. -/
def u32be (n : Nat) : List Nat :=
  [n / 2 ^ 24 % 256, n / 2 ^ 16 % 256, n / 2 ^ 8 % 256, n % 256]

/-- Big-endian interpretation of a byte list, as performed by
`binary.Read(file, binary.BigEndian, &length)` on the 4 length bytes. -/
def beToNat (l : List Nat) : Nat :=
  l.foldl (fun acc b => acc * 256 + b) 0

/-- Modelled from the spec: one reduction step of CRC-32/IEEE-802.3 with the
reflected polynomial `0xEDB88320` — shift right, conditionally folding the
polynomial in when the low bit is set.  (The implementation called at
main.go:107 is Go's `hash/crc32.ChecksumIEEE`, which is not part of this
repository.) -/
def crcStep (c : Nat) : Nat :=
  if c % 2 = 1 then (c / 2) ^^^ 0xEDB88320 else c / 2

/-- Modelled from the spec: absorb one input byte into the running CRC-32
state (xor into the low bits, then eight polynomial-reduction steps). -/
def crcUpdateByte (c b : Nat) : Nat :=
  crcStep^[8] (c ^^^ b)

/-- Modelled from the spec: CRC-32/IEEE-802.3 over a byte list — initial
state `0xFFFFFFFF`, one update per byte, final complement.  Stands for
`crc32.ChecksumIEEE` (main.go:107). -/
def crc32 (data : List Nat) : Nat :=
  (data.foldl crcUpdateByte 0xFFFFFFFF) ^^^ 0xFFFFFFFF

/-- The `createTextChunk` function (main.go:87-111): builds the tEXt chunk
`length ‖ "tEXt" ‖ keyword ‖ 0 ‖ text ‖ crc` with `length = len(chunkData)`
as big-endian u32 (truncated by the `uint32` cast) and
`crc = CRC32("tEXt" ‖ chunkData)`. -/
def createTextChunk (keyword text : List Nat) : List Nat :=
  let chunkData := keyword ++ [0] ++ text
  u32be (chunkData.length % 2 ^ 32) ++ tEXtTag ++ chunkData
    ++ u32be (crc32 (tEXtTag ++ chunkData))

/-- The insertion step of `AddPromptToPNG` (main.go:64-75): reject buffers
shorter than 12 bytes ("PNG file too short"), otherwise splice the chunk in
at `len(data) - 12`, immediately before the fixed-size terminal IEND chunk. -/
def insertBeforeTerminal (data chunkBytes : List Nat) : Except ErrKind (List Nat) :=
  if data.length < 12 then .error .truncatedContainer
  else
    let insertPos := data.length - 12
    .ok (data.take insertPos ++ chunkBytes ++ data.drop insertPos)

/-- The `AddPromptToPNG` function (main.go:31-83) on an in-memory buffer:
if the buffer carries the PNG signature, insert a `"Prompt"` tEXt chunk
before the terminal chunk; a JPEG buffer (`FF D8` prefix) is first
transcoded to PNG by `convertJPEGToPNG`, a step outside this model
(`legacyRasterPath`); anything else is rejected. -/
def AddPromptToPNG (data prompt : List Nat) : Except ErrKind (List Nat) :=
  if 8 ≤ data.length ∧ data.take 8 = pngSignature then
    insertBeforeTerminal data (createTextChunk promptKeyword prompt)
  else if 2 ≤ data.length ∧ data.take 2 = [255, 216] then
    .error .legacyRasterPath
  else .error .unsupportedFormat

/-- The tEXt-chunk inspection of `ReadPromptFromPNG` (main.go:160-170):
find the first null byte of the chunk data (`bytes.IndexByte`); only when it
exists at a position strictly greater than zero and the prefix before it is
"Prompt" is the suffix after it returned as the prompt text. -/
def tEXtMatch (chunkData : List Nat) : Option (List Nat) :=
  match chunkData.findIdx? (fun b => b == 0) with
  | some nullPos =>
      if 0 < nullPos ∧ chunkData.take nullPos = promptKeyword then
        some (chunkData.drop (nullPos + 1))
      else none
  | none => none

/-- The type dispatch ending one iteration of the chunk loop
(main.go:159-175): a tEXt chunk whose data matches the "Prompt" keyword
returns its payload, an IEND chunk ends the scan with "no Prompt metadata
found in PNG", and any other chunk hands the remaining bytes (`.inr`) to the
next iteration. -/
def chunkDispatch (chunkType chunkData r4 : List Nat) :
    Except ErrKind (List Nat) ⊕ List Nat :=
  match (if chunkType = tEXtTag then tEXtMatch chunkData else none) with
  | some text => .inl (.ok text)
  | none =>
      if chunkType = iendTag then .inl (.error .recordNotFound)
      else .inr r4

/-- One iteration of the chunk loop of `ReadPromptFromPNG` (main.go:131-176)
over the remaining bytes: read the big-endian length (clean EOF here — zero
bytes left — yields the "no Prompt metadata found in PNG" error, a partial
read fails), the 4 type bytes, `length` data bytes and the 4 CRC bytes (read
and discarded, never validated), then dispatch on the chunk type. -/
def readChunkStep (rest : List Nat) : Except ErrKind (List Nat) ⊕ List Nat :=
  if rest.length = 0 then .inl (.error .recordNotFound)
  else if rest.length < 4 then .inl (.error .truncatedContainer)
  else
    let length := beToNat (rest.take 4)
    let r1 := rest.drop 4
    if r1.length < 4 then .inl (.error .truncatedContainer)
    else
      let chunkType := r1.take 4
      let r2 := r1.drop 4
      if r2.length < length then .inl (.error .truncatedContainer)
      else
        let chunkData := r2.take length
        let r3 := r2.drop length
        if r3.length < 4 then .inl (.error .truncatedContainer)
        else
          let r4 := r3.drop 4
          chunkDispatch chunkType chunkData r4

/-- The chunk loop of `ReadPromptFromPNG`, with an explicit iteration bound
standing in for Go's unbounded `for {}`: each iteration consumes at least 12
bytes, so a fuel of `rest.length` can never run out (`readChunksF_congr`
makes the bound irrelevant); the fuel-exhaustion answer is therefore
arbitrary and never reached from `readChunks`. -/
def readChunksF : Nat → List Nat → Except ErrKind (List Nat)
  | 0, rest =>
      (match readChunkStep rest with
       | .inl r => r
       | .inr _ => .error .truncatedContainer)
  | fuel + 1, rest =>
      (match readChunkStep rest with
       | .inl r => r
       | .inr r4 => readChunksF fuel r4)

/-- The chunk loop of `ReadPromptFromPNG` (main.go:131-176) over the bytes
following the signature. -/
def readChunks (rest : List Nat) : Except ErrKind (List Nat) :=
  readChunksF rest.length rest

/-- The `ReadPromptFromPNG` function (main.go:114-177) on an in-memory
buffer: check the 8-byte signature (a short or mismatching buffer is "not a
valid PNG file"), then scan the chunk sequence for the first tEXt chunk
carrying the "Prompt" keyword. -/
def ReadPromptFromPNG (data : List Nat) : Except ErrKind (List Nat) :=
  if data.length < 8 then .error .unsupportedFormat
  else if data.take 8 = pngSignature then readChunks (data.drop 8)
  else .error .unsupportedFormat

/-! Spec-side data model (§3 of the design document): a container is the
signature, a sequence of encoded chunks, and the fixed zero-length terminal
chunk.  These definitions give the claims their quantification domain of
"valid chunked-container buffers". -/

/-- Modelled from the spec (§3): a chunk record, determined by its 4-byte
type tag and its data; the on-wire CRC field is computed, not stored. -/
structure Chunk where
  ty : List Nat
  data : List Nat
  deriving DecidableEq

/-- Modelled from the spec (§3/§6): the 12+len on-wire representation of a
chunk — big-endian u32 length, type, data, big-endian u32 CRC over
`type ‖ data`. -/
def encodeChunk (c : Chunk) : List Nat :=
  u32be (c.data.length % 2 ^ 32) ++ c.ty ++ c.data ++ u32be (crc32 (c.ty ++ c.data))

/-- Modelled from the spec (§3): a well-formed non-terminal chunk — 4-byte
type tag, not the terminal tag, data small enough for its u32 length field. -/
def ChunkWF (c : Chunk) : Prop :=
  c.ty.length = 4 ∧ c.ty ≠ iendTag ∧ c.data.length < 2 ^ 32

/-- A chunk that the read loop would accept as a "Prompt" record. -/
def matchesPrompt (c : Chunk) : Prop :=
  c.ty = tEXtTag ∧ (tEXtMatch c.data).isSome = true

instance (c : Chunk) : Decidable (matchesPrompt c) := by
  unfold matchesPrompt; infer_instance

instance (c : Chunk) : Decidable (ChunkWF c) := by
  unfold ChunkWF; infer_instance

/-- Modelled from the spec (§6): the fixed 12-byte terminal chunk —
zero length, "IEND", CRC over the type alone. -/
def iendBytes : List Nat := [0, 0, 0, 0] ++ iendTag ++ u32be (crc32 iendTag)

/-- Serialization of a chunk sequence. -/
def chunksBytes (cs : List Chunk) : List Nat :=
  (cs.map encodeChunk).flatten

/-- Modelled from the spec (§3): the container with the given non-terminal
chunk sequence — signature, encoded chunks, terminal chunk. -/
def containerBytes (cs : List Chunk) : List Nat :=
  pngSignature ++ chunksBytes cs ++ iendBytes

/-- Modelled from the spec (§3): a buffer is a valid chunked container when
it is the serialization of some well-formed chunk sequence. -/
def validContainer (b : List Nat) : Prop :=
  ∃ cs : List Chunk, (∀ c ∈ cs, ChunkWF c) ∧ b = containerBytes cs

/-- The chunk that `createTextChunk "Prompt" t` serializes. -/
def promptChunk (t : List Nat) : Chunk :=
  ⟨tEXtTag, promptKeyword ++ [0] ++ t⟩

/-- The minimal valid (empty) container of the spec's concrete scenario:
signature `89 50 4E 47 0D 0A 1A 0A` followed by the terminal chunk
`00 00 00 00 49 45 4E 44 AE 42 60 82`. -/
def minimalContainer : List Nat :=
  pngSignature ++ [0, 0, 0, 0, 73, 69, 78, 68, 174, 66, 96, 130]

/-- The bytes of the text "a sunset" of the spec's concrete scenario. -/
def sunsetText : List Nat := [97, 32, 115, 117, 110, 115, 101, 116]

/-! Helper lemmas: arithmetic of the byte encodings, and the behaviour of
the read loop on one serialized chunk at the front of the remaining bytes. -/

theorem u32be_length (n : Nat) : (u32be n).length = 4 := rfl

theorem beToNat_u32be (n : Nat) : beToNat (u32be n) = n % 2 ^ 32 := by
  simp only [beToNat, u32be, List.foldl_cons, List.foldl_nil]
  omega

theorem readChunksF_nil (fuel : Nat) : readChunksF fuel [] = .error .recordNotFound := by
  cases fuel <;> rfl

/-- The dispatch continues (`.inr`) only with the remainder it was given. -/
theorem chunkDispatch_inr (t d r s : List Nat) (h : chunkDispatch t d r = .inr s) :
    s = r := by
  unfold chunkDispatch at h
  cases hm : (if t = tEXtTag then tEXtMatch d else none) with
  | some text => rw [hm] at h; cases h
  | none =>
      rw [hm] at h
      by_cases hi : t = iendTag
      · rw [if_pos hi] at h; cases h
      · rw [if_neg hi] at h; cases h; rfl

/-- A continuing iteration of the read loop consumed at least the 12 header
and CRC bytes of the chunk it stepped over. -/
theorem readChunkStep_inr (rest r4 : List Nat) (h : readChunkStep rest = .inr r4) :
    r4.length + 12 ≤ rest.length := by
  simp only [readChunkStep] at h
  split_ifs at h with h0 h1 h2 h3 h4
  have hr := chunkDispatch_inr _ _ _ _ h
  subst hr
  simp only [List.length_drop] at h2 h3 h4 ⊢
  omega

/-- The loop bound of `readChunksF` is irrelevant as long as it is at least
the number of remaining bytes. -/
theorem readChunksF_congr : ∀ (f g : Nat) (rest : List Nat),
    rest.length ≤ f → rest.length ≤ g → readChunksF f rest = readChunksF g rest := by
  intro f
  induction f with
  | zero =>
      intro g rest hf _
      have h0 : rest = [] := List.eq_nil_of_length_eq_zero (Nat.le_zero.mp hf)
      subst h0
      rw [readChunksF_nil, readChunksF_nil]
  | succ f ih =>
      intro g rest hf hg
      cases g with
      | zero =>
          have h0 : rest = [] := List.eq_nil_of_length_eq_zero (Nat.le_zero.mp hg)
          subst h0
          rw [readChunksF_nil, readChunksF_nil]
      | succ g =>
          simp only [readChunksF]
          cases hs : readChunkStep rest with
          | inl r => rfl
          | inr r4 =>
              have hb := readChunkStep_inr rest r4 hs
              show readChunksF f r4 = readChunksF g r4
              exact ih g r4 (by omega) (by omega)

/-- One iteration of the read loop on a buffer beginning with a full
serialized chunk: the length, type, data and CRC bytes are consumed, the
CRC bytes are never inspected, and the loop either returns a matching
"Prompt" payload, stops at IEND, or continues with the remaining bytes. -/
theorem readChunkStep_cons (ty data crcB tail : List Nat)
    (hty : ty.length = 4) (hdata : data.length < 2 ^ 32) (hcrc : crcB.length = 4) :
    readChunkStep (u32be (data.length % 2 ^ 32) ++ (ty ++ (data ++ (crcB ++ tail)))) =
      chunkDispatch ty data tail := by
  rw [Nat.mod_eq_of_lt hdata]
  have h4u : (u32be data.length).length = 4 := rfl
  simp only [readChunkStep]
  rw [List.take_left' h4u, List.drop_left' h4u, beToNat_u32be, Nat.mod_eq_of_lt hdata,
    List.take_left' hty, List.drop_left' hty, List.take_left, List.drop_left,
    List.drop_left' hcrc]
  simp only [List.length_append, u32be_length, hty, hcrc]
  rw [if_neg (by omega), if_neg (by omega), if_neg (by omega), if_neg (by omega),
    if_neg (by omega)]

/-- The read loop on a buffer beginning with a full serialized chunk. -/
theorem readChunks_cons (ty data crcB tail : List Nat)
    (hty : ty.length = 4) (hdata : data.length < 2 ^ 32) (hcrc : crcB.length = 4) :
    readChunks (u32be (data.length % 2 ^ 32) ++ (ty ++ (data ++ (crcB ++ tail)))) =
      (match chunkDispatch ty data tail with
       | .inl r => r
       | .inr r4 => readChunks r4) := by
  unfold readChunks
  have hL : (u32be (data.length % 2 ^ 32) ++ (ty ++ (data ++ (crcB ++ tail)))).length
      = (11 + data.length + tail.length) + 1 := by
    simp only [List.length_append, u32be_length, hty, hcrc]
    omega
  rw [hL]
  simp only [readChunksF]
  rw [readChunkStep_cons ty data crcB tail hty hdata hcrc]
  cases hm : chunkDispatch ty data tail with
  | inl r => rfl
  | inr r4 =>
      have hr := chunkDispatch_inr _ _ _ _ hm
      rw [hr]
      show readChunksF (11 + data.length + tail.length) tail = readChunksF tail.length tail
      exact readChunksF_congr _ _ tail (by omega) (le_refl _)

theorem pngSignature_length : pngSignature.length = 8 := rfl

theorem iendBytes_length : iendBytes.length = 12 := rfl

theorem chunksBytes_cons (c : Chunk) (cs : List Chunk) :
    chunksBytes (c :: cs) = encodeChunk c ++ chunksBytes cs := by
  simp [chunksBytes]

theorem chunksBytes_append (cs ds : List Chunk) :
    chunksBytes (cs ++ ds) = chunksBytes cs ++ chunksBytes ds := by
  simp [chunksBytes]

/-- Splicing before the final 12 bytes of a buffer that ends in a 12-byte
block inserts exactly in front of that block. -/
theorem insertBeforeTerminal_concat (p q chunkBytes : List Nat) (hq : q.length = 12) :
    insertBeforeTerminal (p ++ q) chunkBytes = .ok (p ++ chunkBytes ++ q) := by
  unfold insertBeforeTerminal
  have hl : (p ++ q).length = p.length + 12 := by simp [List.length_append, hq]
  rw [if_neg (by omega)]
  have hpos : (p ++ q).length - 12 = p.length := by omega
  rw [hpos]
  simp only [List.take_left, List.drop_left]

/-- `createTextChunk` with the fixed keyword serializes exactly the abstract
"Prompt" chunk record. -/
theorem createTextChunk_eq (t : List Nat) :
    createTextChunk promptKeyword t = encodeChunk (promptChunk t) := rfl

/-- The read loop on a buffer beginning with an abstractly encoded chunk. -/
theorem readChunks_encode (c : Chunk) (tail : List Nat)
    (hty : c.ty.length = 4) (hlt : c.data.length < 2 ^ 32) :
    readChunks (encodeChunk c ++ tail) =
      (match chunkDispatch c.ty c.data tail with
       | .inl r => r
       | .inr r4 => readChunks r4) := by
  have hs : encodeChunk c ++ tail =
      u32be (c.data.length % 2 ^ 32)
        ++ (c.ty ++ (c.data ++ (u32be (crc32 (c.ty ++ c.data)) ++ tail))) := by
    simp [encodeChunk, List.append_assoc]
  rw [hs]
  exact readChunks_cons c.ty c.data _ tail hty hlt rfl

/-- A chunk that is neither a "Prompt" match nor the terminal chunk is
stepped over. -/
theorem chunkDispatch_skip (c : Chunk) (tail : List Nat)
    (hm : ¬ matchesPrompt c) (hi : c.ty ≠ iendTag) :
    chunkDispatch c.ty c.data tail = .inr tail := by
  unfold chunkDispatch
  have hnone : (if c.ty = tEXtTag then tEXtMatch c.data else none) = none := by
    by_cases ht : c.ty = tEXtTag
    · rw [if_pos ht]
      rcases hopt : tEXtMatch c.data with _ | v
      · rfl
      · exact absurd ⟨ht, by rw [hopt]; rfl⟩ hm
    · rw [if_neg ht]
  simp only [hnone, if_neg hi]

theorem readChunks_skip (c : Chunk) (tail : List Nat)
    (hwf : ChunkWF c) (hm : ¬ matchesPrompt c) :
    readChunks (encodeChunk c ++ tail) = readChunks tail := by
  obtain ⟨hty, hi, hlt⟩ := hwf
  rw [readChunks_encode c tail hty hlt, chunkDispatch_skip c tail hm hi]

/-- The read loop steps over any serialized sequence of well-formed,
non-matching chunks. -/
theorem readChunks_chunksBytes (cs : List Chunk) (tail : List Nat)
    (hwf : ∀ c ∈ cs, ChunkWF c) (hm : ∀ c ∈ cs, ¬ matchesPrompt c) :
    readChunks (chunksBytes cs ++ tail) = readChunks tail := by
  induction cs with
  | nil => simp [chunksBytes]
  | cons c cs ih =>
      rw [chunksBytes_cons, List.append_assoc,
        readChunks_skip c _ (hwf c (by simp)) (hm c (by simp))]
      exact ih (fun d hd => hwf d (by simp [hd])) (fun d hd => hm d (by simp [hd]))

/-- The data of the chunk built for text `t` splits at its first null byte
into the "Prompt" keyword and exactly `t`. -/
theorem tEXtMatch_promptData (t : List Nat) :
    tEXtMatch (promptKeyword ++ [0] ++ t) = some t := by
  unfold tEXtMatch
  have hidx : (promptKeyword ++ [0] ++ t).findIdx? (fun b => b == 0) = some 6 := by
    simp [promptKeyword, List.findIdx?_cons]
  have htake : (promptKeyword ++ [0] ++ t).take 6 = promptKeyword := by
    rw [List.append_assoc]
    exact List.take_left' rfl
  have hdrop : (promptKeyword ++ [0] ++ t).drop (6 + 1) = t :=
    List.drop_left' rfl
  rw [hidx]
  show (if 0 < 6 ∧ (promptKeyword ++ [0] ++ t).take 6 = promptKeyword
        then some ((promptKeyword ++ [0] ++ t).drop (6 + 1)) else none) = some t
  rw [if_pos ⟨by omega, htake⟩, hdrop]

theorem chunkDispatch_prompt (t tail : List Nat) :
    chunkDispatch tEXtTag (promptKeyword ++ [0] ++ t) tail = .inl (.ok t) := by
  unfold chunkDispatch
  rw [if_pos rfl, tEXtMatch_promptData]

/-- The read loop returns `t` on a buffer beginning with the chunk that
`createTextChunk "Prompt" t` built, whatever follows it. -/
theorem readChunks_prompt (t tail : List Nat) (h : 7 + t.length < 2 ^ 32) :
    readChunks (encodeChunk (promptChunk t) ++ tail) = .ok t := by
  have hlt : (promptChunk t).data.length < 2 ^ 32 := by
    simp only [promptChunk, List.length_append, promptKeyword]
    simp only [List.length_cons, List.length_nil]
    omega
  rw [readChunks_encode (promptChunk t) tail rfl hlt]
  show (match chunkDispatch tEXtTag (promptKeyword ++ [0] ++ t) tail with
        | .inl r => r
        | .inr r4 => readChunks r4) = .ok t
  rw [chunkDispatch_prompt]

theorem readChunks_iend : readChunks iendBytes = .error .recordNotFound := rfl

/-- `ReadPromptFromPNG` on a signature-prefixed buffer runs the chunk loop
on the remainder. -/
theorem read_after_sig (rest : List Nat) :
    ReadPromptFromPNG (pngSignature ++ rest) = readChunks rest := by
  unfold ReadPromptFromPNG
  rw [if_neg (by simp only [List.length_append, pngSignature_length]; omega),
    if_pos (List.take_left' pngSignature_length), List.drop_left' pngSignature_length]

/-- `AddPromptToPNG` on a serialized container appends the "Prompt" chunk
record just before the terminal chunk. -/
theorem addPrompt_container (cs : List Chunk) (t : List Nat) :
    AddPromptToPNG (containerBytes cs) t = .ok (containerBytes (cs ++ [promptChunk t])) := by
  have hsig : (containerBytes cs).take 8 = pngSignature := by
    rw [show containerBytes cs = pngSignature ++ (chunksBytes cs ++ iendBytes) by
      simp [containerBytes, List.append_assoc]]
    exact List.take_left' pngSignature_length
  have hlen : 8 ≤ (containerBytes cs).length := by
    simp only [containerBytes, List.length_append, pngSignature_length, iendBytes_length]
    omega
  unfold AddPromptToPNG
  rw [if_pos ⟨hlen, hsig⟩]
  rw [show containerBytes cs = (pngSignature ++ chunksBytes cs) ++ iendBytes from rfl]
  rw [insertBeforeTerminal_concat _ _ _ iendBytes_length, createTextChunk_eq]
  unfold containerBytes
  rw [chunksBytes_append]
  simp [chunksBytes_cons, chunksBytes, List.append_assoc]

theorem readChunks_nil : readChunks [] = .error .recordNotFound := rfl

theorem containerBytes_take8 (cs : List Chunk) :
    (containerBytes cs).take 8 = pngSignature := by
  rw [show containerBytes cs = pngSignature ++ (chunksBytes cs ++ iendBytes) by
    simp [containerBytes, List.append_assoc]]
  exact List.take_left' pngSignature_length

theorem containerBytes_dropEnd (cs : List Chunk) :
    (containerBytes cs).drop ((containerBytes cs).length - 12) = iendBytes := by
  rw [show containerBytes cs = (pngSignature ++ chunksBytes cs) ++ iendBytes from rfl]
  have hl : ((pngSignature ++ chunksBytes cs) ++ iendBytes).length - 12
      = (pngSignature ++ chunksBytes cs).length := by
    simp only [List.length_append, iendBytes_length]
    omega
  rw [hl, List.drop_left]

/-- A well-formed container with no matching chunk reads as "no Prompt
metadata found in PNG". -/
theorem read_container_noPrompt (cs : List Chunk)
    (hwf : ∀ c ∈ cs, ChunkWF c) (hm : ∀ c ∈ cs, ¬ matchesPrompt c) :
    ReadPromptFromPNG (containerBytes cs) = .error .recordNotFound := by
  rw [show containerBytes cs = pngSignature ++ (chunksBytes cs ++ iendBytes) by
    simp [containerBytes, List.append_assoc]]
  rw [read_after_sig, readChunks_chunksBytes cs iendBytes hwf hm, readChunks_iend]

/-- Reading a container whose earliest matching chunk is the "Prompt" chunk
for `t` returns `t`, whatever well-formed non-matching chunks precede it and
whatever chunks follow it. -/
theorem read_container_prompt (cs ds : List Chunk) (t : List Nat)
    (hwf : ∀ c ∈ cs, ChunkWF c) (hm : ∀ c ∈ cs, ¬ matchesPrompt c)
    (hlen : 7 + t.length < 2 ^ 32) :
    ReadPromptFromPNG (containerBytes (cs ++ promptChunk t :: ds)) = .ok t := by
  rw [show containerBytes (cs ++ promptChunk t :: ds)
      = pngSignature ++ (chunksBytes cs
          ++ (encodeChunk (promptChunk t) ++ (chunksBytes ds ++ iendBytes))) by
    simp [containerBytes, chunksBytes_append, chunksBytes_cons, List.append_assoc]]
  rw [read_after_sig, readChunks_chunksBytes cs _ hwf hm]
  exact readChunks_prompt t _ hlen

/-- The read loop fails with the truncation error on any nonempty fragment
too short to hold the full 12 + length bytes of its first chunk. -/
theorem readChunks_truncated (frag : List Nat)
    (h0 : 0 < frag.length) (h : frag.length < 12 + beToNat (frag.take 4)) :
    readChunks frag = .error .truncatedContainer := by
  have hs : readChunkStep frag = .inl (.error .truncatedContainer) := by
    simp only [readChunkStep]
    rw [if_neg (by omega)]
    by_cases h1 : frag.length < 4
    · rw [if_pos h1]
    · rw [if_neg h1]
      by_cases h2 : (frag.drop 4).length < 4
      · rw [if_pos h2]
      · rw [if_neg h2]
        by_cases h3 : ((frag.drop 4).drop 4).length < beToNat (frag.take 4)
        · rw [if_pos h3]
        · rw [if_neg h3]
          rw [if_pos (by simp only [List.length_drop] at h2 h3 ⊢; omega)]
  unfold readChunks
  obtain ⟨n, hn⟩ : ∃ n, frag.length = n + 1 := ⟨frag.length - 1, by omega⟩
  rw [hn]
  simp only [readChunksF]
  rw [hs]

/-- One CRC-32 bit step keeps the state below `2 ^ 32`. -/
theorem crcStep_lt (c : Nat) (h : c < 2 ^ 32) : crcStep c < 2 ^ 32 := by
  unfold crcStep
  split_ifs
  · exact Nat.xor_lt_two_pow (by omega) (by norm_num)
  · omega

theorem crcStep_iter_lt (n c : Nat) (h : c < 2 ^ 32) : crcStep^[n] c < 2 ^ 32 := by
  induction n generalizing c with
  | zero => simpa using h
  | succ n ih =>
      rw [Function.iterate_succ_apply]
      exact ih (crcStep c) (crcStep_lt c h)

theorem crcUpdateByte_lt (c b : Nat) (hc : c < 2 ^ 32) (hb : b < 256) :
    crcUpdateByte c b < 2 ^ 32 := by
  unfold crcUpdateByte
  exact crcStep_iter_lt 8 _ (Nat.xor_lt_two_pow hc (by omega))

/-- CRC-32 of a byte list fits in a u32. -/
theorem crc32_lt (l : List Nat) (h : ∀ b ∈ l, b < 256) : crc32 l < 2 ^ 32 := by
  unfold crc32
  have hfold : ∀ (l2 : List Nat), (∀ b ∈ l2, b < 256) → ∀ (c : Nat), c < 2 ^ 32 →
      l2.foldl crcUpdateByte c < 2 ^ 32 := by
    intro l2
    induction l2 with
    | nil => intro _ c hc; simpa using hc
    | cons a as ih =>
        intro hl2 c hc
        rw [List.foldl_cons]
        exact ih (fun b hb => hl2 b (List.mem_cons_of_mem a hb)) (crcUpdateByte c a)
          (crcUpdateByte_lt c a hc (hl2 a (List.mem_cons_self a as)))
  exact Nat.xor_lt_two_pow (hfold l h 0xFFFFFFFF (by norm_num)) (by norm_num)

/-- A tEXt chunk whose data has no null byte, or whose first byte is null,
never matches. -/
theorem tEXtMatch_none_of_edge (data : List Nat)
    (h : (0 ∉ data) ∨ data.head? = some 0) : tEXtMatch data = none := by
  unfold tEXtMatch
  rcases h with h | h
  · have hnone : data.findIdx? (fun b => b == 0) = none := by
      rw [List.findIdx?_eq_none_iff]
      intro x hx
      exact beq_eq_false_iff_ne.mpr (fun he => h (he ▸ hx))
    rw [hnone]
  · cases data with
    | nil => cases h
    | cons a as =>
        have ha : a = 0 := by simpa using h
        subst ha
        simp [List.findIdx?_cons]

/-- The modelled CRC-32 yields the well-known terminal-chunk checksum
`AE 42 60 82`, so the abstract terminal chunk is byte-identical to the
spec's concrete one. -/
theorem iendBytes_concrete : iendBytes = [0, 0, 0, 0, 73, 69, 78, 68, 174, 66, 96, 130] := by
  decide

/-! Claim theorems. -/

/-- Claim C1, counterexample: on a valid container that already holds a
"Prompt" record with text `x`, embedding text `y` and reading back returns
`x`, not `y` — the unconditional round trip fails, because the new chunk is
inserted after the existing one and the read is first-match. -/
theorem roundtrip_fails_on_preexisting_prompt :
    validContainer (containerBytes [promptChunk [120]]) ∧
    AddPromptToPNG (containerBytes [promptChunk [120]]) [121]
      = .ok (containerBytes [promptChunk [120], promptChunk [121]]) ∧
    ReadPromptFromPNG (containerBytes [promptChunk [120], promptChunk [121]])
      = .ok [120] ∧
    [120] ≠ [121] :=
  ⟨⟨[promptChunk [120]], by decide, rfl⟩, rfl, rfl, by decide⟩

/-- Claim C1 (amended): for every valid chunked-container buffer with no
pre-existing "Prompt" record, and text of length below `2 ^ 32 - 7`,
reading the buffer produced by embedding returns exactly the embedded
text. -/
theorem roundtrip_embed_read (cs : List Chunk) (t : List Nat)
    (hwf : ∀ c ∈ cs, ChunkWF c) (hm : ∀ c ∈ cs, ¬ matchesPrompt c)
    (hlen : 7 + t.length < 2 ^ 32) :
    ∃ nb, AddPromptToPNG (containerBytes cs) t = .ok nb ∧
      ReadPromptFromPNG nb = .ok t :=
  ⟨containerBytes (cs ++ [promptChunk t]), addPrompt_container cs t,
    read_container_prompt cs [] t hwf hm hlen⟩

/-- Claim C1, witness: the round trip at the empty container and the
one-byte text "a". -/
theorem roundtrip_embed_read_witness :
    ∃ nb, AddPromptToPNG (containerBytes []) [97] = .ok nb ∧
      ReadPromptFromPNG nb = .ok [97] :=
  roundtrip_embed_read [] [97] (by decide) (by decide) (by decide)

/-- Claim C2, counterexample: on a valid container already holding a
"Prompt" record with text `x`, embedding `y` then `z` and reading returns
`x` — the earliest record in file order — not the first-embedded `y`. -/
theorem double_embed_fails_on_preexisting_prompt :
    validContainer (containerBytes [promptChunk [120]]) ∧
    AddPromptToPNG (containerBytes [promptChunk [120]]) [121]
      = .ok (containerBytes [promptChunk [120], promptChunk [121]]) ∧
    AddPromptToPNG (containerBytes [promptChunk [120], promptChunk [121]]) [122]
      = .ok (containerBytes [promptChunk [120], promptChunk [121], promptChunk [122]]) ∧
    ReadPromptFromPNG
        (containerBytes [promptChunk [120], promptChunk [121], promptChunk [122]])
      = .ok [120] ∧
    [120] ≠ [121] :=
  ⟨⟨[promptChunk [120]], by decide, rfl⟩, rfl, rfl, rfl, by decide⟩

/-- Claim C2 (amended): for every valid chunked-container buffer with no
pre-existing "Prompt" record, embedding `t1` (of length below `2 ^ 32 - 7`)
then `t2` and reading returns `t1`, the earliest "Prompt" chunk in file
order, not `t2`. -/
theorem double_embed_first_match (cs : List Chunk) (t1 t2 : List Nat)
    (hwf : ∀ c ∈ cs, ChunkWF c) (hm : ∀ c ∈ cs, ¬ matchesPrompt c)
    (h1 : 7 + t1.length < 2 ^ 32) :
    ∃ nb1 nb2,
      AddPromptToPNG (containerBytes cs) t1 = .ok nb1 ∧
      AddPromptToPNG nb1 t2 = .ok nb2 ∧
      ReadPromptFromPNG nb2 = .ok t1 := by
  refine ⟨containerBytes (cs ++ [promptChunk t1]),
    containerBytes ((cs ++ [promptChunk t1]) ++ [promptChunk t2]),
    addPrompt_container cs t1, addPrompt_container _ t2, ?_⟩
  rw [show (cs ++ [promptChunk t1]) ++ [promptChunk t2]
      = cs ++ promptChunk t1 :: [promptChunk t2] by simp]
  exact read_container_prompt cs [promptChunk t2] t1 hwf hm h1

/-- Claim C2, witness: double embedding "a" then "b" into the empty
container reads back "a". -/
theorem double_embed_first_match_witness :
    ∃ nb1 nb2,
      AddPromptToPNG (containerBytes []) [97] = .ok nb1 ∧
      AddPromptToPNG nb1 [98] = .ok nb2 ∧
      ReadPromptFromPNG nb2 = .ok [97] :=
  double_embed_first_match [] [97] [98] (by decide) (by decide) (by decide)

/-- Claim C3: `insertBeforeTerminal` splices the chunk bytes in at position
`len(bytes) - 12` — prefix, chunk, final 12 bytes — without parsing the
chunk sequence, and rejects buffers shorter than 12 bytes with the
truncation error. -/
theorem insertBeforeTerminal_spec (bytes chunkBytes : List Nat) :
    insertBeforeTerminal bytes chunkBytes =
      if bytes.length < 12 then .error .truncatedContainer
      else .ok (bytes.take (bytes.length - 12) ++ chunkBytes
        ++ bytes.drop (bytes.length - 12)) := rfl

/-- Claim C4: `createTextChunk` produces exactly `12 + len(data)` bytes —
a big-endian u32 length equal to `len(data)`, the 4-byte "tEXt" tag, the
data `keyword ‖ 0 ‖ text`, and a big-endian u32 CRC-32/IEEE-802.3 over
`type ‖ data`; as a pure function it is deterministic.  The length equality
needs the data to fit a u32, and reading the CRC field back needs the input
to be genuine bytes (`< 256`). -/
theorem createTextChunk_layout (keyword text : List Nat)
    (hlen : keyword.length + 1 + text.length < 2 ^ 32)
    (hbytes : ∀ b ∈ keyword ++ [0] ++ text, b < 256) :
    (createTextChunk keyword text).length = 12 + (keyword ++ [0] ++ text).length ∧
    beToNat ((createTextChunk keyword text).take 4) = (keyword ++ [0] ++ text).length ∧
    ((createTextChunk keyword text).drop 4).take 4 = tEXtTag ∧
    ((createTextChunk keyword text).drop 8).take ((keyword ++ [0] ++ text).length)
      = keyword ++ [0] ++ text ∧
    (createTextChunk keyword text).drop (8 + (keyword ++ [0] ++ text).length)
      = u32be (crc32 (tEXtTag ++ (keyword ++ [0] ++ text))) ∧
    beToNat ((createTextChunk keyword text).drop (8 + (keyword ++ [0] ++ text).length))
      = crc32 (tEXtTag ++ (keyword ++ [0] ++ text)) ∧
    createTextChunk keyword text = createTextChunk keyword text := by
  have hD : (keyword ++ [0] ++ text).length = keyword.length + 1 + text.length := by
    simp only [List.length_append, List.length_cons, List.length_nil]
    try omega
  have hDlt : (keyword ++ [0] ++ text).length < 2 ^ 32 := by omega
  have hd4 : (u32be ((keyword ++ [0] ++ text).length)).length = 4 := u32be_length _
  have ht4 : tEXtTag.length = 4 := rfl
  have hCT : createTextChunk keyword text
      = u32be ((keyword ++ [0] ++ text).length)
        ++ (tEXtTag ++ ((keyword ++ [0] ++ text)
          ++ u32be (crc32 (tEXtTag ++ (keyword ++ [0] ++ text))))) := by
    simp only [createTextChunk]
    rw [Nat.mod_eq_of_lt hDlt]
    simp [List.append_assoc]
  have h8 : (u32be ((keyword ++ [0] ++ text).length) ++ tEXtTag).length = 8 := by
    simp only [List.length_append, u32be_length, ht4]
  have hCT8 : createTextChunk keyword text
      = (u32be ((keyword ++ [0] ++ text).length) ++ tEXtTag)
        ++ ((keyword ++ [0] ++ text)
          ++ u32be (crc32 (tEXtTag ++ (keyword ++ [0] ++ text)))) := by
    rw [hCT]
    simp [List.append_assoc]
  have hCTD : createTextChunk keyword text
      = ((u32be ((keyword ++ [0] ++ text).length) ++ tEXtTag)
          ++ (keyword ++ [0] ++ text))
        ++ u32be (crc32 (tEXtTag ++ (keyword ++ [0] ++ text))) := by
    rw [hCT]
    simp [List.append_assoc]
  have hDlen : ((u32be ((keyword ++ [0] ++ text).length) ++ tEXtTag)
      ++ (keyword ++ [0] ++ text)).length = 8 + (keyword ++ [0] ++ text).length := by
    simp only [List.length_append, u32be_length, ht4]
  refine ⟨?_, ?_, ?_, ?_, ?_, ?_, rfl⟩
  · rw [hCT]
    simp only [List.length_append, u32be_length, ht4]
    omega
  · rw [hCT, List.take_left' hd4, beToNat_u32be, Nat.mod_eq_of_lt hDlt]
  · rw [hCT, List.drop_left' hd4, List.take_left' ht4]
  · rw [hCT8, List.drop_left' h8, List.take_left]
  · rw [hCTD, List.drop_left' hDlen]
  · rw [hCTD, List.drop_left' hDlen, beToNat_u32be]
    refine Nat.mod_eq_of_lt (crc32_lt _ ?_)
    intro b hb
    rcases List.mem_append.mp hb with hb | hb
    · have : b = 116 ∨ b = 69 ∨ b = 88 ∨ b = 116 := by simpa [tEXtTag] using hb
      omega
    · exact hbytes b hb

/-- Claim C4, witness: the layout at keyword "K" and text "ab". -/
theorem createTextChunk_layout_witness :
    ([75].length + 1 + [97, 98].length < 2 ^ 32) ∧
    (createTextChunk [75] [97, 98]).length = 12 + ([75] ++ [0] ++ [97, 98]).length ∧
    beToNat ((createTextChunk [75] [97, 98]).take 4) = ([75] ++ [0] ++ [97, 98]).length :=
  ⟨by decide,
    (createTextChunk_layout [75] [97, 98] (by decide) (by decide)).1,
    (createTextChunk_layout [75] [97, 98] (by decide) (by decide)).2.1⟩

/-- Claim C5, counterexample: a buffer holding only the valid signature
ends cleanly at a chunk boundary with no terminal chunk, yet `read` fails
with the record-not-found error ("no Prompt metadata found in PNG"), not
the truncation error — `binary.Read` returning a clean `io.EOF` at the
length field is mapped to the not-found message (main.go:135-137). -/
theorem read_clean_eof_not_truncated :
    ReadPromptFromPNG pngSignature = .error .recordNotFound ∧
    ErrKind.recordNotFound ≠ ErrKind.truncatedContainer :=
  ⟨rfl, by decide⟩

/-- Claim C5 (amended): after any well-formed non-matching chunks, a
nonempty fragment too short for its first chunk (mid-header, mid-data or
mid-CRC) makes `read` fail with the truncation error; but a buffer ending
cleanly at a chunk boundary with no terminal chunk fails with the
record-not-found error instead. -/
theorem read_truncation_behavior (cs : List Chunk) (frag : List Nat)
    (hwf : ∀ c ∈ cs, ChunkWF c) (hm : ∀ c ∈ cs, ¬ matchesPrompt c) :
    (0 < frag.length → frag.length < 12 + beToNat (frag.take 4) →
      ReadPromptFromPNG (pngSignature ++ (chunksBytes cs ++ frag))
        = .error .truncatedContainer) ∧
    ReadPromptFromPNG (pngSignature ++ chunksBytes cs) = .error .recordNotFound := by
  constructor
  · intro h0 h
    rw [read_after_sig, readChunks_chunksBytes cs frag hwf hm,
      readChunks_truncated frag h0 h]
  · have h2 := readChunks_chunksBytes cs [] hwf hm
    rw [List.append_nil] at h2
    rw [read_after_sig, h2, readChunks_nil]

/-- Claim C5, witness: the spec's own fragment — the signature followed by
the first 5 bytes of a chunk header — is rejected as truncated, and the
empty chunk sequence without terminal reads as not-found. -/
theorem read_truncation_behavior_witness :
    ReadPromptFromPNG (pngSignature ++ (chunksBytes [] ++ [0, 0, 0, 1, 116]))
      = .error .truncatedContainer ∧
    ReadPromptFromPNG (pngSignature ++ chunksBytes []) = .error .recordNotFound :=
  ⟨(read_truncation_behavior [] [0, 0, 0, 1, 116] (by decide) (by decide)).1
      (by decide) (by decide),
    (read_truncation_behavior [] [0, 0, 0, 1, 116] (by decide) (by decide)).2⟩

/-- Claim C6, counterexample: embedding "a sunset" into the minimal valid
container yields 47 bytes, which is the original 20 plus the 27-byte chunk
(12 of framing plus the 15 bytes of `Prompt ‖ 0 ‖ a sunset`), not the
claimed original + 12 + 8 = 40 — the stated formula undercounts the
`Prompt ‖ 0` keyword prefix of the chunk data. -/
theorem concrete_scenario_length_counterexample :
    AddPromptToPNG minimalContainer sunsetText
      = .ok (containerBytes [promptChunk sunsetText]) ∧
    (containerBytes [promptChunk sunsetText]).length = 47 ∧
    minimalContainer.length + 12 + 8 = 40 ∧ (47 : Nat) ≠ 40 :=
  ⟨rfl, by decide, by decide, by decide⟩

/-- Claim C6 (amended): embedding "a sunset" into the minimal valid
container succeeds, yields a buffer of the original length + 12 + 15
(15 being the length of `Prompt ‖ 0 ‖ a sunset`), and reading the result
returns exactly "a sunset". -/
theorem concrete_minimal_scenario :
    ∃ nb, AddPromptToPNG minimalContainer sunsetText = .ok nb ∧
      nb.length = minimalContainer.length + 12 + 15 ∧
      ReadPromptFromPNG nb = .ok sunsetText :=
  ⟨containerBytes [promptChunk sunsetText], rfl, by decide, rfl⟩

/-- Claim C7: a well-formed container whose chunk sequence reaches the
terminal chunk without any tEXt chunk matching the "Prompt" keyword reads
as the record-not-found error, not a truncation or format error. -/
theorem read_notFound_on_promptless_container (cs : List Chunk)
    (hwf : ∀ c ∈ cs, ChunkWF c) (hm : ∀ c ∈ cs, ¬ matchesPrompt c) :
    ReadPromptFromPNG (containerBytes cs) = .error .recordNotFound :=
  read_container_noPrompt cs hwf hm

/-- Claim C7, witness: the minimal container with no chunks at all. -/
theorem read_notFound_on_promptless_container_witness :
    ReadPromptFromPNG (containerBytes []) = .error .recordNotFound :=
  read_notFound_on_promptless_container [] (by decide) (by decide)

/-- Claim C8: the read path reads and discards the CRC field without
validating it — a container whose "Prompt" tEXt chunk carries any 4-byte
CRC field, in particular one different from `CRC32(type ‖ data)`, still
yields the chunk's textual payload. -/
theorem read_accepts_corrupted_crc (cs : List Chunk) (data badCrc txt : List Nat)
    (hwf : ∀ c ∈ cs, ChunkWF c) (hm : ∀ c ∈ cs, ¬ matchesPrompt c)
    (hdl : data.length < 2 ^ 32) (hmatch : tEXtMatch data = some txt)
    (hc4 : badCrc.length = 4)
    (hbad : badCrc ≠ u32be (crc32 (tEXtTag ++ data))) :
    ReadPromptFromPNG (pngSignature ++ (chunksBytes cs
      ++ (u32be (data.length % 2 ^ 32) ++ (tEXtTag ++ (data ++ (badCrc ++ iendBytes))))))
      = .ok txt := by
  rw [read_after_sig, readChunks_chunksBytes cs _ hwf hm,
    readChunks_cons tEXtTag data badCrc iendBytes rfl hdl hc4]
  unfold chunkDispatch
  rw [if_pos rfl, hmatch]

/-- Claim C8, witness: a "Prompt"/"x" chunk whose CRC field is zeroed out
is still read back as "x". -/
theorem read_accepts_corrupted_crc_witness :
    ReadPromptFromPNG (pngSignature ++ (chunksBytes []
      ++ (u32be (([80, 114, 111, 109, 112, 116, 0, 120] : List Nat).length % 2 ^ 32)
        ++ (tEXtTag ++ ([80, 114, 111, 109, 112, 116, 0, 120]
          ++ ([0, 0, 0, 0] ++ iendBytes)))))) = .ok [120] :=
  read_accepts_corrupted_crc [] [80, 114, 111, 109, 112, 116, 0, 120] [0, 0, 0, 0] [120]
    (by decide) (by decide) (by decide) (by decide) (by decide) (by decide)

/-- Claim C9: embedding into any valid chunked-container buffer preserves
the structure — the result starts with the same 8-byte signature and its
final 12 bytes are byte-identical to the final 12 bytes of the input,
the fixed zero-length terminal chunk. -/
theorem embed_preserves_structure (b t : List Nat) (h : validContainer b) :
    ∃ nb, AddPromptToPNG b t = .ok nb ∧
      nb.take 8 = b.take 8 ∧ nb.take 8 = pngSignature ∧
      nb.drop (nb.length - 12) = b.drop (b.length - 12) ∧
      nb.drop (nb.length - 12) = iendBytes := by
  obtain ⟨cs, hwf, rfl⟩ := h
  refine ⟨containerBytes (cs ++ [promptChunk t]), addPrompt_container cs t, ?_, ?_, ?_, ?_⟩
  · rw [containerBytes_take8, containerBytes_take8]
  · rw [containerBytes_take8]
  · rw [containerBytes_dropEnd, containerBytes_dropEnd]
  · rw [containerBytes_dropEnd]

/-- Claim C9, witness: structure preservation at the empty container and
text "a". -/
theorem embed_preserves_structure_witness :
    ∃ nb, AddPromptToPNG (containerBytes []) [97] = .ok nb ∧
      nb.take 8 = (containerBytes []).take 8 ∧ nb.take 8 = pngSignature ∧
      nb.drop (nb.length - 12)
        = (containerBytes []).drop ((containerBytes []).length - 12) ∧
      nb.drop (nb.length - 12) = iendBytes :=
  embed_preserves_structure (containerBytes []) [97] ⟨[], by decide, rfl⟩

/-- Claim C10: a tEXt chunk whose data contains no null byte at all, or
whose very first byte is null, is never treated as a match — the read loop
skips it and continues with the subsequent chunks. -/
theorem read_skips_null_edge_chunks (data tail : List Nat)
    (hdl : data.length < 2 ^ 32)
    (h : (0 ∉ data) ∨ data.head? = some 0) :
    readChunks (encodeChunk ⟨tEXtTag, data⟩ ++ tail) = readChunks tail := by
  have hnone := tEXtMatch_none_of_edge data h
  apply readChunks_skip ⟨tEXtTag, data⟩ tail ⟨rfl, show tEXtTag ≠ iendTag by decide, hdl⟩
  intro hmp
  have hs : (tEXtMatch data).isSome = true := hmp.2
  rw [hnone] at hs
  cases hs

/-- Claim C10, witness: a tEXt chunk with the single non-null data byte
"P" (no null separator) is skipped, leaving the scan of the following
terminal chunk. -/
theorem read_skips_null_edge_chunks_witness :
    (0 ∉ ([80] : List Nat)) ∧
    readChunks (encodeChunk ⟨tEXtTag, [80]⟩ ++ iendBytes) = readChunks iendBytes :=
  ⟨by decide, read_skips_null_edge_chunks [80] iendBytes (by decide) (Or.inl (by decide))⟩
